import Mathlib

/-!
Shallow embedding of the `wave-collapse` Rust crate (Wasabi375/wave-collapse),
a generic Wave Function Collapse constraint-propagation engine, together with
theorems settling the specification claims about it.

The crate is mid-refactor and contains two variants of the cell type:
* `src/lib.rs` defines `Node` WITHOUT a collapsed flag (`is_collapsed` is
  `possible_values.len() == 1`), the `WaveShape`/`WaveKernel` traits and the
  solver `collapse_wave`;
* `src/node.rs` defines `Node` WITH an `is_collapsed: RefCell<bool>` flag;
  `src/tile2d.rs` (`TileMap2D`, `Kernel2D`) imports that variant.

We embed both faithfully: `NodeL` is the `lib.rs` node, `NodeF` is the
`node.rs` node.  Machine integers (`u32`, `i64`) are modelled as `Nat`/`Int`;
the only place where overflow semantics matter is the `as u32` cast in
`Kernel2D::get`, modelled explicitly as `Int.emod _ (2^32)`.
-/

/-- `tile2d.rs`: `Size2D { width: u32, height: u32 }`. -/
structure Size2D where
  width : Nat
  height : Nat
deriving DecidableEq, Repr

/-- `tile2d.rs`: `pub type Index2D = (u32, u32);` -/
abbrev Index2D := Nat × Nat

/-- `lib.rs` / `error.rs`: `enum WaveCollapseError`. -/
inductive WaveCollapseError where
  | invalidSuperposition
  | other
  | notImplemented
  | emptyInput
  | iterationError
deriving DecidableEq, Repr

/-! ## The `lib.rs` node (no collapsed flag)

`lib.rs` lines 92-141: `Node { id, possible_values: RefCell<Vec<_>> }`.
The `RefCell` is interior mutability only; the state of a node is its id and
its current candidate vector. -/

/-- `lib.rs` `Node`: a cell with an id and the list of values it can still
collapse into.  There is no stored collapsed flag in this variant. -/
structure NodeL (V : Type) where
  id : Index2D
  possibleValues : List V
deriving DecidableEq, Repr

namespace NodeL

/-- `lib.rs` `Node::new(id, possible_values)`: stores the id and the given
candidate vector unchanged. -/
def new {V : Type} (id : Index2D) (possibleValues : List V) : NodeL V :=
  { id := id, possibleValues := possibleValues }

/-- `lib.rs` `Node::is_collapsed`: `self.possible_values.borrow().len() == 1`. -/
def isCollapsed {V : Type} (n : NodeL V) : Bool :=
  n.possibleValues.length == 1

/-- `lib.rs` `Node::is_overspecified`: `self.possible_values.borrow().len() == 0`. -/
def isOverspecified {V : Type} (n : NodeL V) : Bool :=
  n.possibleValues.length == 0

/-- `lib.rs` `Node::possibilities`: `self.possible_values.borrow().len() as u32`. -/
def possibilities {V : Type} (n : NodeL V) : Nat :=
  n.possibleValues.length

/-- `lib.rs` `Node::collapsed()`: `Some(values[0])` when `is_collapsed`, else
`None`.  When collapsed the list has length 1, so `get? 0` is the Rust `[0]`. -/
def collapsedValue {V : Type} (n : NodeL V) : Option V :=
  if n.isCollapsed then n.possibleValues.get? 0 else none

end NodeL

/-! ## The `node.rs` node (explicit collapsed flag)

`node.rs` lines 11-60: `Node { id, possible_values, is_collapsed: RefCell<bool> }`. -/

/-- `node.rs` `Node`: a cell with an id, candidate list, and an explicit
`is_collapsed` flag.  `tile2d.rs` uses this variant. -/
structure NodeF (V : Type) where
  id : Index2D
  possibleValues : List V
  isCollapsed : Bool
deriving DecidableEq, Repr

namespace NodeF

/-- `node.rs` `Node::new(id, possible_values)`: flag starts `false`. -/
def new {V : Type} (id : Index2D) (possibleValues : List V) : NodeF V :=
  { id := id, possibleValues := possibleValues, isCollapsed := false }

/-- `node.rs` `Node::is_overspecified`. -/
def isOverspecified {V : Type} (n : NodeF V) : Bool :=
  n.possibleValues.length == 0

/-- `node.rs` `Node::entropy`. -/
def entropy {V : Type} (n : NodeF V) : Nat :=
  n.possibleValues.length

/-- `node.rs` `Node::collapsed()`: if the flag is set, return
`possible_values[0]`.  The Rust indexing `[0]` panics when the flag is set on
an empty list; that state is unreachable for nodes the crate constructs, and
theorems about maps of such nodes carry the corresponding hypothesis. -/
def collapsedValue {V : Type} (n : NodeF V) : Option V :=
  if n.isCollapsed then n.possibleValues.get? 0 else none

end NodeF

/-! ## Vecgrid (the `vecgrid` crate, array2d-style)

`TileMap2D` stores its nodes in a `Vecgrid` built with `from_column_major`
and reads them with `get(row, col)` and `elements_column_major_iter`.
We model a `Vecgrid` by its element list in column-major order: the element
at `(row r, col c)` sits at position `c * numRows + r`. -/

/-- A `Vecgrid` with `numRows * numCols` elements stored column-major. -/
structure Vecgrid (V : Type) where
  numRows : Nat
  numCols : Nat
  data : List V
deriving DecidableEq, Repr

namespace Vecgrid

/-- `Vecgrid::from_column_major(elements, num_rows, num_cols)`: fails (Err)
unless the element count matches the dimensions. -/
def fromColumnMajor {V : Type} (elements : List V) (numRows numCols : Nat) :
    Option (Vecgrid V) :=
  if elements.length = numRows * numCols then
    some { numRows := numRows, numCols := numCols, data := elements }
  else
    none

/-- `Vecgrid::get(row, col)`: `None` out of bounds. -/
def get {V : Type} (g : Vecgrid V) (row col : Nat) : Option V :=
  if row < g.numRows ∧ col < g.numCols then
    g.data.get? (col * g.numRows + row)
  else
    none

/-- `Vecgrid::elements_column_major_iter`: the stored order. -/
def elementsColumnMajor {V : Type} (g : Vecgrid V) : List V :=
  g.data

end Vecgrid

/-! ## TileMap2D (`tile2d.rs`)

`TileMap2D { size, kernel_size, last_collapsed, nodes: Vecgrid<Node<Index2D, V>> }`.
`new` pushes nodes in the order `for y in 0..height { for x in 0..width }` and
hands that vector to `Vecgrid::from_column_major(data, width, height)`, so the
node with id `(x, y)` sits at row `x`, column `y`; `get_node(&(x, y))` is
`nodes.get(x, y)`.  `last_collapsed` is observability only and does not feed
any claim, so it is omitted from the state. -/

/-- `tile2d.rs` `TileMap2D`. -/
structure TileMap2D (V : Type) where
  size : Size2D
  kernelSize : Size2D
  nodes : Vecgrid (NodeF V)
deriving DecidableEq, Repr

namespace TileMap2D

/-- The node vector `TileMap2D::new` builds:
`for y in 0..height { for x in 0..width { Node::new((x, y), possible_values) } }`. -/
def newNodeList {V : Type} (size : Size2D) (possibleValues : List V) :
    List (NodeF V) :=
  (List.range size.height).flatMap fun y =>
    (List.range size.width).map fun x => NodeF.new (x, y) possibleValues

/-- `tile2d.rs` `TileMap2D::new(size, kernel_size, possible_values)`.
The Rust function asserts that both kernel dimensions are odd and that
`possible_values` is non-empty, and `.expect`s the `Vecgrid` construction;
assertion/expect failure is modelled as `none`. -/
def new {V : Type} (size kernelSize : Size2D) (possibleValues : List V) :
    Option (TileMap2D V) :=
  if kernelSize.width % 2 = 1 ∧ kernelSize.height % 2 = 1 ∧ possibleValues.isEmpty = false then
    (Vecgrid.fromColumnMajor (newNodeList size possibleValues)
        size.width size.height).map
      fun g => { size := size, kernelSize := kernelSize, nodes := g }
  else
    none

/-- `tile2d.rs` `TileMap2D::get_node(&(x, y))`: `self.nodes.get(x, y)`. -/
def getNode {V : Type} (tm : TileMap2D V) (id : Index2D) : Option (NodeF V) :=
  tm.nodes.get id.1 id.2

/-- `tile2d.rs` `WaveShape::iter_node_ids` for `TileMap2D`:
`for y in 0..height { for x in 0..width { yield (x, y) } }`. -/
def iterNodeIds {V : Type} (tm : TileMap2D V) : List Index2D :=
  (List.range tm.size.height).flatMap fun y =>
    (List.range tm.size.width).map fun x => (x, y)

/-- `tile2d.rs` `TileMap2D::get_collapsed`: map every node (column-major) to
`node.collapsed()`; if any is `None` return `None`, else rebuild a `Vecgrid`
of the unwrapped values with the same dimensions.  The `.expect` on the
rebuild is modelled by `Option.bind`. -/
def getCollapsed {V : Type} (tm : TileMap2D V) : Option (Vecgrid V) :=
  let vals := tm.nodes.elementsColumnMajor.map NodeF.collapsedValue
  if vals.any Option.isNone then
    none
  else
    Vecgrid.fromColumnMajor vals.reduceOption tm.size.width tm.size.height

end TileMap2D

/-! ## Kernel2D (`tile2d.rs`)

`Kernel2D<WrappingMode, V> { tile_map, node_id, radius_x: i64, radius_y: i64 }`.
The radii are `((kernel_size.width - 1) / 2) as i64` (u32 arithmetic, then
cast), non-negative for the odd kernel sizes `TileMap2D::new` admits.
The border policy (`Cutoff` vs `Wrapping`) selects the `iter_node_ids`
implementation; `get` is defined once on the generic impl and is therefore
identical in both modes. -/

/-- The two border policies of `tile2d.rs::wrapping_mode`. -/
inductive WrappingMode where
  | cutoff
  | wrapping
deriving DecidableEq, Repr

/-- `tile2d.rs` `Kernel2D`.  The shared `Rc<TileMap2D>` is carried as a field;
the phantom mode parameter is carried as a value. -/
structure Kernel2D (V : Type) where
  mode : WrappingMode
  tileMap : TileMap2D V
  nodeId : Index2D
  radiusX : Nat
  radiusY : Nat
deriving Repr

namespace Kernel2D

/-- `Kernel2D::new(shape, node)`: radii are `(kernel_size - 1) / 2`. -/
def new {V : Type} (mode : WrappingMode) (shape : TileMap2D V)
    (node : NodeF V) : Kernel2D V :=
  { mode := mode
    tileMap := shape
    nodeId := node.id
    radiusX := (shape.kernelSize.width - 1) / 2
    radiusY := (shape.kernelSize.height - 1) / 2 }

/-- The `as u32` cast of an `i64`: truncation to the low 32 bits, i.e. the
Euclidean remainder modulo `2^32`. -/
def i64AsU32 (x : Int) : Nat :=
  (x.emod (2 ^ 32)).toNat

/-- `tile2d.rs` `Kernel2D::get(x, y)` (lines 152-163): `None` when the offset
exceeds a radius, otherwise look up
`((node_id.0 as i64 + x) as u32, (node_id.1 as i64 + y) as u32)`.
Note: no branch on the wrapping mode, and no reduction by the grid size. -/
def get {V : Type} (k : Kernel2D V) (x y : Int) : Option (NodeF V) :=
  if x.natAbs > k.radiusX ∨ y.natAbs > k.radiusY then
    none
  else
    k.tileMap.getNode (i64AsU32 ((k.nodeId.1 : Int) + x),
                       i64AsU32 ((k.nodeId.2 : Int) + y))

end Kernel2D

/-- The inclusive `i64` range `lo..=hi` as a list of integers. -/
def intRangeIncl (lo hi : Int) : List Int :=
  (List.range (hi + 1 - lo).toNat).map fun (i : Nat) => lo + (i : Int)

namespace Kernel2D

/-- `tile2d.rs` `Kernel2D<Cutoff>::iter_node_ids` (lines 177-200): clamp the
radius window to the grid and enumerate `(x as u32, y as u32)`,
`y` outer, `x` inner. -/
def iterNodeIdsCutoff {V : Type} (k : Kernel2D V) : List Index2D :=
  let xMin := max ((k.nodeId.1 : Int) - (k.radiusX : Int)) 0
  let xMax := min ((k.nodeId.1 : Int) + (k.radiusX : Int))
      ((k.tileMap.size.width : Int) - 1)
  let yMin := max ((k.nodeId.2 : Int) - (k.radiusY : Int)) 0
  let yMax := min ((k.nodeId.2 : Int) + (k.radiusY : Int))
      ((k.tileMap.size.height : Int) - 1)
  (intRangeIncl yMin yMax).flatMap fun y =>
    (intRangeIncl xMin xMax).map fun x => (x.toNat, y.toNat)

/-- `tile2d.rs` `Kernel2D<Wrapping>::iter_node_ids` (lines 214-232): enumerate
the full radius window and reduce each coordinate with `rem_euclid` by the
grid dimension. -/
def iterNodeIdsWrapping {V : Type} (k : Kernel2D V) : List Index2D :=
  let xMin := (k.nodeId.1 : Int) - (k.radiusX : Int)
  let xMax := (k.nodeId.1 : Int) + (k.radiusX : Int)
  let yMin := (k.nodeId.2 : Int) - (k.radiusY : Int)
  let yMax := (k.nodeId.2 : Int) + (k.radiusY : Int)
  (intRangeIncl yMin yMax).flatMap fun y =>
    (intRangeIncl xMin xMax).map fun x =>
      ((x.emod (k.tileMap.size.width : Int)).toNat,
       (y.emod (k.tileMap.size.height : Int)).toNat)

/-- Dispatch on the border policy, as the trait impl selection does. -/
def iterNodeIds {V : Type} (k : Kernel2D V) : List Index2D :=
  match k.mode with
  | .cutoff => k.iterNodeIdsCutoff
  | .wrapping => k.iterNodeIdsWrapping

end Kernel2D

/-! ## BinaryHeapSet (`binary_heap_set.rs`)

`BinaryHeapSet<T> { heap: BinaryHeap<T>, set: HashSet<T> }`.  The heap is
modelled by the list of its elements in insertion order; `pop` removes a
greatest element (Rust's `BinaryHeap::pop`; which greatest among equals is
implementation-defined, modelled as the first in insertion order).  The
`HashSet` is modelled as a duplicate-free membership list. -/

structure BinaryHeapSet (T : Type) where
  heap : List T
  set : List T
deriving Repr

namespace BinaryHeapSet

/-- `BinaryHeapSet::new()`. -/
def empty {T : Type} : BinaryHeapSet T := { heap := [], set := [] }

/-- `BinaryHeapSet::is_empty`: `self.heap.is_empty()`. -/
def isEmpty {T : Type} (h : BinaryHeapSet T) : Bool :=
  h.heap.isEmpty

/-- `BinaryHeapSet::push`: `HashSet::insert` returns `true` iff the value was
not present; only then is the value also pushed onto the heap. -/
def push {T : Type} [DecidableEq T] (h : BinaryHeapSet T) (value : T) :
    BinaryHeapSet T × Bool :=
  if value ∈ h.set then
    (h, false)
  else
    ({ heap := h.heap ++ [value], set := value :: h.set }, true)

/-- Remove the first occurrence of a maximal element from a list, returning it
and the remaining elements in order. -/
def extractMaxFirst {T : Type} [LinearOrder T] : List T → Option (T × List T)
  | [] => none
  | x :: xs =>
    match extractMaxFirst xs with
    | none => some (x, [])
    | some (m, rest) => if m > x then some (m, x :: rest) else some (x, xs)

/-- `BinaryHeapSet::pop`: pop the heap; if a value came out, remove it from
the set as well. -/
def pop {T : Type} [LinearOrder T] [DecidableEq T] (h : BinaryHeapSet T) :
    Option T × BinaryHeapSet T :=
  match extractMaxFirst h.heap with
  | none => (none, h)
  | some (m, rest) => (some m, { heap := rest, set := h.set.erase m })

/-- Representation invariant tying the auxiliary set to the heap: the set
holds exactly the elements currently in the heap (as a permutation), and the
heap never holds duplicates (both guaranteed by `push`/`pop` from the empty
state). -/
def WF {T : Type} (h : BinaryHeapSet T) : Prop :=
  List.Perm h.set h.heap ∧ h.heap.Nodup

end BinaryHeapSet

/-! ## The solver (`lib.rs::collapse_wave`, lines 215-290)

The solver is generic over the shape; we embed it instantiated with a 2D
tile-map shape whose cells are the `lib.rs` nodes (`NodeL`), which is how the
crate's examples drive it.  The shape state is the node list in
`iter_node_ids` order (`y` outer, `x` inner).

Randomness: the only RNG use is `SliceRandom::choose` in `collapse_node`,
i.e. one `gen_range(0..len)` per outer iteration.  The RNG is modelled as a
draw sequence `draws : Nat → Nat`; the `i`-th `gen_range(0..len)` returns
`draws i % len` (a faithful in-range draw has `draws i < len`, and then
`draws i % len = draws i`).

The propagation queue is `BinaryHeap<Reverse<&Node>>` (note: the plain
`BinaryHeap`, not `BinaryHeapSet`), so `pop` yields a node of least current
entropy; `Node`'s `Ord` compares entropies except that equal ids compare
equal.  Which node of least entropy `pop` yields when several tie (or when
entropies changed while queued) is implementation-defined in Rust; the model
pops the earliest-pushed among those of least current entropy.  Every
concrete run examined below keeps the queue at most one element long, where
every faithful model of `BinaryHeap::pop` agrees. -/

/-- The solver-side shape: a tile map of `lib.rs` nodes.  `nodes` is in
`iter_node_ids` order (`y` outer, `x` inner), matching `TileMap2D`. -/
structure SolverShape (V : Type) where
  size : Size2D
  kernelSize : Size2D
  nodes : List (NodeL V)
deriving DecidableEq, Repr

namespace SolverShape

/-- `get_node` on the solver-side shape: the node with the given id. -/
def getNode {V : Type} (s : SolverShape V) (id : Index2D) : Option (NodeL V) :=
  s.nodes.find? fun n => n.id = id

/-- Writing back a node's candidate list through its `RefCell`. -/
def updateNode {V : Type} (s : SolverShape V) (id : Index2D) (vals : List V) :
    SolverShape V :=
  { s with
    nodes := s.nodes.map fun n =>
      if n.id = id then { n with possibleValues := vals } else n }

/-- `lib.rs` `WaveShape::is_collapsed` (default impl):
`self.iter_nodes().all(|node| node.is_collapsed())`. -/
def isCollapsed {V : Type} (s : SolverShape V) : Bool :=
  s.nodes.all NodeL.isCollapsed

/-- `lib.rs` `WaveShape::is_overspecified` (default impl, lines 66-68):
`self.iter_nodes().all(|node| node.is_overspecified())`.
Its own doc comment says "returns `true` if ANY node in the WaveShape is
overspecified", but the implementation quantifies with `all`. -/
def isOverspecified {V : Type} (s : SolverShape V) : Bool :=
  s.nodes.all NodeL.isOverspecified

/-- The predicate the doc comment of `is_overspecified` (and the design spec)
describe: some node is overspecified. -/
def anyNodeOverspecified {V : Type} (s : SolverShape V) : Bool :=
  s.nodes.any NodeL.isOverspecified

end SolverShape

/-- `Iterator::min_by_key`: the first element realizing the minimal key
(Rust: "If several elements are equally minimum, the first element is
returned"). -/
def minByKeyFirst {α : Type} (key : α → Nat) : List α → Option α
  | [] => none
  | x :: xs =>
    match minByKeyFirst key xs with
    | none => some x
    | some m => if key x ≤ key m then some x else some m

/-- `lib.rs` lines 249-255: the selection of the next cell to collapse,
`shape.iter_nodes().filter(|n| !n.is_collapsed()).min_by_key(|n| n.possibilities())`. -/
def pickNode {V : Type} (s : SolverShape V) : Option (NodeL V) :=
  minByKeyFirst NodeL.possibilities (s.nodes.filter fun n => !n.isCollapsed)

/-- `lib.rs` `collapse_node(node, rng)`: `choose` picks a uniformly random
element (`None` on an empty list, which the solver `.expect`s — a panic);
the list is then cleared and the chosen value pushed. -/
def collapseNodeVals {V : Type} (vals : List V) (draw : Nat) : Option (List V) :=
  (vals.get? (draw % vals.length)).map fun v => [v]

/-- The kernel-id enumeration the solver-side shape induces, i.e.
`Kernel2D::iter_node_ids` over this geometry (radii `(kernel_size - 1) / 2`). -/
def runKernelIds (mode : WrappingMode) (size kernelSize : Size2D)
    (c : Index2D) : List Index2D :=
  let rx : Nat := (kernelSize.width - 1) / 2
  let ry : Nat := (kernelSize.height - 1) / 2
  match mode with
  | .cutoff =>
    let xMin := max ((c.1 : Int) - (rx : Int)) 0
    let xMax := min ((c.1 : Int) + (rx : Int)) ((size.width : Int) - 1)
    let yMin := max ((c.2 : Int) - (ry : Int)) 0
    let yMax := min ((c.2 : Int) + (ry : Int)) ((size.height : Int) - 1)
    (intRangeIncl yMin yMax).flatMap fun y =>
      (intRangeIncl xMin xMax).map fun x => (x.toNat, y.toNat)
  | .wrapping =>
    (intRangeIncl ((c.2 : Int) - (ry : Int)) ((c.2 : Int) + (ry : Int))).flatMap
      fun y =>
        (intRangeIncl ((c.1 : Int) - (rx : Int)) ((c.1 : Int) + (rx : Int))).map
          fun x =>
            ((x.emod (size.width : Int)).toNat, (y.emod (size.height : Int)).toNat)

/-- A push into the propagation queue, with the pushed cell's collapsed
status at push time (for stating the claims about what gets enqueued). -/
structure PushEvent where
  id : Index2D
  wasCollapsed : Bool
deriving DecidableEq, Repr

/-- Why a run stopped abnormally: a Rust panic (a failed `expect`), or the
model ran out of fuel (no Rust counterpart; fuel is chosen large enough that
concrete runs never hit it). -/
inductive RunStop where
  | panicked
  | fuelOut
deriving DecidableEq, Repr

/-- Remove the first element realizing the minimal key from a list, returning
it and the remaining elements in order. -/
def extractMinFirst {α : Type} (key : α → Nat) : List α → Option (α × List α)
  | [] => none
  | x :: xs =>
    match extractMinFirst key xs with
    | none => some (x, [])
    | some (m, rest) => if key x ≤ key m then some (x, xs) else some (m, x :: rest)

/-- `open_list.pop()` on `BinaryHeap<Reverse<&Node>>`: a node of least
current entropy leaves the queue (see the fidelity note above); a queued id
that no longer resolves to a node would be a dangling reference (modelled as
`none`, which the caller turns into a panic — it never happens). -/
def popMin {V : Type} (s : SolverShape V) (q : List Index2D) :
    Option (Index2D × List Index2D) :=
  (q.mapM fun i => (s.getNode i).map fun n => (i, n.possibilities)).bind
    fun pairs =>
      (extractMinFirst Prod.snd pairs).map fun pr => (pr.1.1, pr.2.map Prod.fst)

/-- One pass of the inner `while !open_list.is_empty()` body (`lib.rs` lines
264-284), given the already-popped node id `nid`: build the kernel, `retain`
the candidates through the solver predicate (unconditionally — there is no
`is_collapsed` guard in the source), and if the candidate count changed,
push every kernel id other than `nid` itself.  Returns the new state, the
ids pushed, and the push events. -/
def propagateBody {V : Type} (P : V → SolverShape V → Index2D → Bool)
    (mode : WrappingMode) (s : SolverShape V) (nid : Index2D) :
    Option (SolverShape V × List Index2D × List PushEvent) :=
  (s.getNode nid).bind fun node =>
    let newVals := node.possibleValues.filter fun v => P v s nid
    let s' := s.updateNode nid newVals
    let changed := node.possibleValues.length ≠ newVals.length
    if changed then
      let pushedIds := (runKernelIds mode s.size s.kernelSize nid).filter
        fun i => i ≠ nid
      (pushedIds.mapM fun i => (s'.getNode i).map fun n =>
          PushEvent.mk i n.isCollapsed).map
        fun events => (s', pushedIds, events)
    else
      some (s', [], [])

/-- The inner propagation loop (`lib.rs` lines 261-284), with fuel.  Threads
the queue, the push-event log, and the trace of states after each mutation. -/
def propagate {V : Type} (P : V → SolverShape V → Index2D → Bool)
    (mode : WrappingMode) :
    Nat → SolverShape V → List Index2D → List PushEvent →
      List (SolverShape V) →
      Except RunStop (SolverShape V × List PushEvent × List (SolverShape V))
  | 0, _, _, _, _ => .error .fuelOut
  | _ + 1, s, [], log, trace => .ok (s, log, trace)
  | fuel + 1, s, q@(_ :: _), log, trace =>
    match popMin s q with
    | none => .error .panicked
    | some (nid, rest) =>
      match propagateBody P mode s nid with
      | none => .error .panicked
      | some (s', pushedIds, events) =>
        propagate P mode fuel s' (rest ++ pushedIds) (log ++ events)
          (trace ++ [s'])

/-- The terminal outcome of a run of `collapse_wave`. -/
inductive RunOutcome (V : Type) where
  | success (final : SolverShape V)
  | failure (e : WaveCollapseError)
  | panicked
  | fuelOut
deriving DecidableEq, Repr

/-- Everything a run produces: the terminal outcome, the sequence of yielded
snapshots (one per outer iteration), the log of propagation-queue pushes
performed inside the inner loop (the initial push of the freshly collapsed
cell `c*` opens the queue and is not part of this log), and the trace of
shape states after each single-cell mutation (`collapse_node` or `retain`). -/
structure RunResult (V : Type) where
  outcome : RunOutcome V
  snapshots : List (SolverShape V)
  pushLog : List PushEvent
  mutTrace : List (SolverShape V)
deriving DecidableEq, Repr

/-- The outer `loop` of `collapse_wave` (`lib.rs` lines 239-290), with fuel.
`di` counts the RNG draws consumed so far (one per `collapse_node`). -/
def collapseLoop {V : Type} (P : V → SolverShape V → Index2D → Bool)
    (mode : WrappingMode) (pfuel : Nat) (draws : Nat → Nat) :
    Nat → Nat → SolverShape V → List (SolverShape V) → List PushEvent →
      List (SolverShape V) → RunResult V
  | 0, _, _, snapshots, log, trace =>
    { outcome := .fuelOut, snapshots := snapshots, pushLog := log,
      mutTrace := trace }
  | fuel + 1, di, s, snapshots, log, trace =>
    if s.isCollapsed then
      { outcome := .success s, snapshots := snapshots, pushLog := log,
        mutTrace := trace }
    else if s.isOverspecified then
      { outcome := .failure .invalidSuperposition, snapshots := snapshots,
        pushLog := log, mutTrace := trace }
    else
      match pickNode s with
      | none =>
        { outcome := .panicked, snapshots := snapshots, pushLog := log,
          mutTrace := trace }
      | some node =>
        match collapseNodeVals node.possibleValues (draws di) with
        | none =>
          { outcome := .panicked, snapshots := snapshots, pushLog := log,
            mutTrace := trace }
        | some vals =>
          let s1 := s.updateNode node.id vals
          match propagate P mode pfuel s1 [node.id] log (trace ++ [s1]) with
          | .error .panicked =>
            { outcome := .panicked, snapshots := snapshots, pushLog := log,
              mutTrace := trace ++ [s1] }
          | .error .fuelOut =>
            { outcome := .fuelOut, snapshots := snapshots, pushLog := log,
              mutTrace := trace ++ [s1] }
          | .ok (s2, log2, trace2) =>
            collapseLoop P mode pfuel draws fuel (di + 1) s2
              (snapshots ++ [s2]) log2 trace2

/-- `lib.rs` `collapse_wave(shape, solver)` (lines 215-290): fail `EmptyInput`
on a node-less shape, otherwise run the outer loop.  The mutation trace
starts with the initial state. -/
def collapseWave {V : Type} (P : V → SolverShape V → Index2D → Bool)
    (mode : WrappingMode) (fuel pfuel : Nat) (draws : Nat → Nat)
    (shape : SolverShape V) : RunResult V :=
  if shape.nodes.length = 0 then
    { outcome := .failure .emptyInput, snapshots := [], pushLog := [],
      mutTrace := [] }
  else
    collapseLoop P mode pfuel draws fuel 0 shape [] [] [shape]

/-! ## Concrete fixtures

Small shapes and predicates used to evaluate the solver on concrete inputs.
Values are natural numbers (`0` playing the tile `A`, `1` the tile `B`). -/

/-- A solver predicate rejecting every value (spec scenario "predicate that
always returns false"). -/
def pFalse : Nat → SolverShape Nat → Index2D → Bool := fun _ _ _ => false

/-- A solver predicate accepting exactly the value `0`. -/
def pIsZero : Nat → SolverShape Nat → Index2D → Bool := fun v _ _ => v == 0

/-- A solver predicate accepting every value. -/
def pTrue : Nat → SolverShape Nat → Index2D → Bool := fun _ _ _ => true

/-- A 1-by-1 tile map with candidates `{0, 1}` and a 3-by-3 kernel. -/
def shape1x1 : SolverShape Nat :=
  { size := ⟨1, 1⟩, kernelSize := ⟨3, 3⟩,
    nodes := [NodeL.new (0, 0) [0, 1]] }

/-- A 2-by-1 tile map with candidates `{0, 1}` and a 3-by-1 kernel. -/
def shape2x1 : SolverShape Nat :=
  { size := ⟨2, 1⟩, kernelSize := ⟨3, 1⟩,
    nodes := [NodeL.new (0, 0) [0, 1], NodeL.new (1, 0) [0, 1]] }

/-- The run of the solver on `shape1x1` with the all-rejecting predicate and
a draw sequence that always returns 0. -/
def runFalse1x1 : RunResult Nat :=
  collapseWave pFalse .cutoff 5 5 (fun _ => 0) shape1x1

/-- The run of the solver on `shape2x1` with the accepts-only-`0` predicate
and the draw sequence `0, 1, 2, ...`. -/
def runZero2x1 : RunResult Nat :=
  collapseWave pIsZero .cutoff 6 6 (fun i => i) shape2x1

/-- A 3-by-3 tile map of `node.rs` nodes with the single candidate `0` and a
3-by-3 kernel (radii 1), as `TileMap2D::new` builds it. -/
def tileMap3x3 : TileMap2D Nat :=
  { size := ⟨3, 3⟩, kernelSize := ⟨3, 3⟩,
    nodes := { numRows := 3, numCols := 3,
               data := TileMap2D.newNodeList ⟨3, 3⟩ [0] } }

/-- One mutation step of the solver never grows any cell's candidate list:
the two states have the same cells in the same order (ids preserved
position-wise) and each cell's candidate count in `s'` is at most its count
in `s`. -/
def StepDecr {V : Type} (s s' : SolverShape V) : Prop :=
  s'.nodes.length = s.nodes.length ∧
  ∀ j : Nat,
    ((s.nodes.get? j).map NodeL.id = (s'.nodes.get? j).map NodeL.id) ∧
    ∀ n n', s.nodes.get? j = some n → s'.nodes.get? j = some n' →
      n'.possibleValues.length ≤ n.possibleValues.length

/-! # Theorems -/

/-! ## C9: node construction and the collapsed predicate

The claim says `is_collapsed()` is `false` right after `Node::new` with a
non-empty list, *including* a one-element list.  The cited node
(`lib.rs` lines 101-110 and 122-124) stores no collapsed flag:
`is_collapsed` is `len == 1`, so a node built from a one-element list is
collapsed immediately. -/

/-- C9 counterexample: `Node::new((0,0), [0])` has a non-empty (singleton)
candidate list, yet `is_collapsed()` returns `true`, contradicting the claim
that it returns `false` for every non-empty initial list. -/
theorem c9_counterexample :
    ([0] : List Nat) ≠ [] ∧
      (NodeL.new (0, 0) ([0] : List Nat)).isCollapsed = true := by
  constructor
  · decide
  · rfl

/-- C9 amended: after `Node::new(id, vals)` with `vals` non-empty, the
candidate list is stored unchanged, the node is not overspecified, and
`is_collapsed()` holds iff the initial list has exactly one element (there is
no stored collapsed flag in this node; in particular `is_collapsed()` is
`false` exactly when the list has two or more elements). -/
theorem c9_amended {V : Type} (id : Index2D) (vals : List V) (h : vals ≠ []) :
    (NodeL.new id vals).possibleValues = vals ∧
      ((NodeL.new id vals).isCollapsed = true ↔ vals.length = 1) ∧
      (NodeL.new id vals).isOverspecified = false := by
  refine ⟨rfl, ?_, ?_⟩
  · simp [NodeL.new, NodeL.isCollapsed]
  · simp [NodeL.new, NodeL.isOverspecified, List.length_eq_zero, h]

/-- C9 witness: the amended statement at `id = (0,0)`, `vals = [5, 6]`. -/
theorem c9_amended_witness :
    (NodeL.new (0, 0) ([5, 6] : List Nat)).possibleValues = [5, 6] ∧
      ((NodeL.new (0, 0) ([5, 6] : List Nat)).isCollapsed = true ↔
        ([5, 6] : List Nat).length = 1) ∧
      (NodeL.new (0, 0) ([5, 6] : List Nat)).isOverspecified = false :=
  c9_amended (0, 0) [5, 6] (by decide)

/-! ## C1: the top-of-loop overspecification check

`WaveShape::is_overspecified` (`lib.rs` lines 66-68) is implemented with
`.all(...)` although its own doc comment reads "returns `true` if any node
... is overspecified", and the solver's step-3 check therefore does not fire
when just one node is overspecified.  The state below is reached by the
concrete run `runZero2x1` (it is the second yielded snapshot); at the next
top of loop the run does not fail with `InvalidSuperposition` — it proceeds
to select the overspecified cell and panics inside `collapse_node`. -/

/-- C1: at the reachable state with nodes `(0,0) ↦ [0]` (collapsed) and
`(1,0) ↦ []` (overspecified), some node is overspecified and not all nodes
are collapsed, yet the shape-level predicate the solver consults returns
`false`, and the run that reaches this state panics instead of failing with
`InvalidSuperposition`. -/
theorem c1_code_bug :
    SolverShape.anyNodeOverspecified
        ⟨⟨2, 1⟩, ⟨3, 1⟩, [⟨(0, 0), [0]⟩, ⟨(1, 0), []⟩]⟩ = true ∧
      SolverShape.isCollapsed
        ⟨⟨2, 1⟩, ⟨3, 1⟩, [⟨(0, 0), [0]⟩, ⟨(1, 0), []⟩]⟩ = false ∧
      SolverShape.isOverspecified
        ⟨⟨2, 1⟩, ⟨3, 1⟩, [⟨(0, 0), [0]⟩, ⟨(1, 0), []⟩]⟩ = false ∧
      runZero2x1.snapshots.get? 1 =
        some ⟨⟨2, 1⟩, ⟨3, 1⟩, [⟨(0, 0), [0]⟩, ⟨(1, 0), []⟩]⟩ ∧
      runZero2x1.outcome = .panicked := by
  decide

/-! ## C7: caller-supplied randomness

`collapse_wave` (`lib.rs` lines 215-232) takes no RNG argument: it constructs
`rand::thread_rng()` internally, with the comment
"TODO: let user pass in their own Rng — This should be useful for debugging"
acknowledging the gap.  The run is a function of the internal draw sequence
the caller cannot fix, as the two runs below show: identical shapes and
identical predicates, different thread-RNG draws, different results. -/

/-- C7: with the same shape (`shape1x1`) and same predicate (`pTrue`), the
draw sequence that always returns 0 collapses the cell to `0` and the one
that always returns 1 collapses it to `1` — the terminal result depends on
the internal RNG, which the entry point gives the caller no way to seed. -/
theorem c7_code_bug :
    (collapseWave pTrue .cutoff 5 5 (fun _ => 0) shape1x1).outcome =
        .success ⟨⟨1, 1⟩, ⟨3, 3⟩, [⟨(0, 0), [0]⟩]⟩ ∧
      (collapseWave pTrue .cutoff 5 5 (fun _ => 1) shape1x1).outcome =
        .success ⟨⟨1, 1⟩, ⟨3, 3⟩, [⟨(0, 0), [1]⟩]⟩ := by
  decide

/-! ## C2 (counterexample part): retain is applied to collapsed cells

In `runFalse1x1` the single cell is collapsed by `collapse_node` (state 1 of
the mutation trace, candidate list `[0]`, length 1), then popped from the
propagation queue; the solver applies `retain` with no `is_collapsed` guard
(`lib.rs` lines 279-281), and the all-rejecting predicate empties the list
(state 2). -/

/-- C2 counterexample: in the run `runFalse1x1`, the cell `(0,0)` is
collapsed (candidate list `[0]`) at mutation-trace step 1 and its candidate
list is mutated to `[]` at step 2 — a collapsed cell's list is mutated again
within the run, because `retain` is applied to the popped collapsed cell. -/
theorem c2_counterexample :
    runFalse1x1.mutTrace.get? 1 =
        some ⟨⟨1, 1⟩, ⟨3, 3⟩, [⟨(0, 0), [0]⟩]⟩ ∧
      NodeL.isCollapsed (⟨(0, 0), [0]⟩ : NodeL Nat) = true ∧
      runFalse1x1.mutTrace.get? 2 =
        some ⟨⟨1, 1⟩, ⟨3, 3⟩, [⟨(0, 0), ([] : List Nat)⟩]⟩ := by
  decide

/-! ## C3 (counterexample part): collapsed cells are pushed

In `runZero2x1`, when the popped node `(1,0)` changes (its chosen value `1`
is rejected), the solver enqueues every kernel id other than `(1,0)` with no
collapsed filter (`lib.rs` lines 273-283): the already collapsed `(0,0)` is
pushed. -/

/-- C3 counterexample: the propagation push log of `runZero2x1` consists of a
push of the cell `(0,0)` whose collapsed status at push time was `true` (the
log excludes the initial push of the freshly collapsed cell, so this is a
collapsed cell re-entering the queue, contradicting the claim). -/
theorem c3_counterexample :
    runZero2x1.pushLog = [⟨(0, 0), true⟩] := by
  decide

/-! ## C5: the deduplicating queue vs the solver's queue

The dedup laws hold of `BinaryHeapSet` (`binary_heap_set.rs`), but the
solver's propagation queue (`lib.rs` lines 261-281) is a plain
`BinaryHeap` — `open_list.push` admits duplicates unconditionally.  The
counterexample exhibits one inner-loop step in which the cell `(0,0)` is
pushed while already enqueued, so the loop continues with the queue
`[(0,0)] ++ [(0,0)]`: two simultaneous entries. -/

/-- C5 counterexample: from the state with nodes `(0,0) ↦ [0,1]` and
`(1,0) ↦ [0,1]` and the queue `[(1,0), (0,0)]`, the solver pops `(1,0)`
(leaving `(0,0)` enqueued) and, because the candidate list changed, pushes
`(0,0)` again; the queue the loop continues with is `rest ++ pushed`, whose
size grows from 1 to 2 although `(0,0)` was already present — the solver's
queue does not deduplicate. -/
theorem c5_counterexample :
    popMin (⟨⟨2, 1⟩, ⟨3, 1⟩, [⟨(0, 0), [0, 1]⟩, ⟨(1, 0), [0, 1]⟩]⟩ :
        SolverShape Nat) [(1, 0), (0, 0)] = some ((1, 0), [(0, 0)]) ∧
      propagateBody pIsZero .cutoff
          ⟨⟨2, 1⟩, ⟨3, 1⟩, [⟨(0, 0), [0, 1]⟩, ⟨(1, 0), [0, 1]⟩]⟩ (1, 0) =
        some (⟨⟨2, 1⟩, ⟨3, 1⟩, [⟨(0, 0), [0, 1]⟩, ⟨(1, 0), [0]⟩]⟩,
          [(0, 0)], [⟨(0, 0), false⟩]) ∧
      (0, 0) ∈ ([(0, 0)] : List Index2D) ∧
      (([(0, 0)] : List Index2D) ++ [(0, 0)]).length >
        ([(0, 0)] : List Index2D).length := by
  decide

/-- C5 amended: the cited `BinaryHeapSet` satisfies the dedup laws — under
the representation invariant, pushing a value already in the heap returns
`false` and leaves the heap's size (indeed the heap itself) unchanged, and a
popped value is removed from the membership set so that pushing it again
afterwards returns `true` (a new admission).  The solver's propagation loop,
however, uses a plain `BinaryHeap`, not this structure (see the
counterexample). -/
theorem c5_amended {T : Type} [LinearOrder T] (h : BinaryHeapSet T)
    (hwf : h.WF) :
    (∀ v ∈ h.heap, (h.push v).2 = false ∧
      (h.push v).1.heap.length = h.heap.length) ∧
    (∀ v h', h.pop = (some v, h') → v ∉ h'.set ∧ (h'.push v).2 = true) := by
  obtain ⟨hperm, hnodup⟩ := hwf
  constructor
  · intro v hv
    have hset : v ∈ h.set := hperm.mem_iff.2 hv
    constructor <;> simp [BinaryHeapSet.push, hset]
  · intro v h' hpop
    unfold BinaryHeapSet.pop at hpop
    cases hx : BinaryHeapSet.extractMaxFirst h.heap with
    | none => rw [hx] at hpop; simp at hpop
    | some pr =>
      obtain ⟨m, rest⟩ := pr
      rw [hx] at hpop
      simp only [Prod.mk.injEq, Option.some.injEq] at hpop
      obtain ⟨rfl, rfl⟩ := hpop
      have hsetnodup : h.set.Nodup := hperm.nodup_iff.2 hnodup
      have hnm : m ∉ h.set.erase m := by
        intro hc
        exact ((List.Nodup.mem_erase_iff hsetnodup).1 hc).1 rfl
      exact ⟨hnm, by simp [BinaryHeapSet.push, hnm]⟩

/-- C5 witness: the amended statement at the well-formed queue with heap
`[3, 5]` and set `[5, 3]`. -/
theorem c5_amended_witness :
    (∀ v ∈ ({ heap := [3, 5], set := [5, 3] } : BinaryHeapSet Nat).heap,
        (({ heap := [3, 5], set := [5, 3] } : BinaryHeapSet Nat).push v).2 =
            false ∧
          (({ heap := [3, 5], set := [5, 3] } :
              BinaryHeapSet Nat).push v).1.heap.length =
            ({ heap := [3, 5], set := [5, 3] } :
              BinaryHeapSet Nat).heap.length) ∧
    (∀ v h', ({ heap := [3, 5], set := [5, 3] } :
        BinaryHeapSet Nat).pop = (some v, h') →
      v ∉ h'.set ∧ (h'.push v).2 = true) :=
  c5_amended { heap := [3, 5], set := [5, 3] } (by constructor <;> decide)

/-! ## C4: selection of the next cell to collapse

`lib.rs` lines 249-255 select
`iter_nodes().filter(|n| !n.is_collapsed()).min_by_key(|n| n.possibilities())`:
deterministic (no RNG draw), first-minimal in iteration order, and with no
overspecified filter — an overspecified cell (0 candidates) is the minimum
whenever one exists. -/

/-- `minByKeyFirst` returns `none` exactly on the empty list. -/
theorem minByKeyFirst_eq_none {α : Type} (key : α → Nat) (l : List α) :
    minByKeyFirst key l = none ↔ l = [] := by
  cases l with
  | nil => simp [minByKeyFirst]
  | cons x xs =>
    cases hx : minByKeyFirst key xs with
    | none => simp [minByKeyFirst, hx]
    | some m =>
      simp only [minByKeyFirst, hx]
      split <;> simp

/-- `minByKeyFirst` returns an element of the list realizing the minimal
key. -/
theorem minByKeyFirst_spec {α : Type} (key : α → Nat) (l : List α) (m : α)
    (h : minByKeyFirst key l = some m) : m ∈ l ∧ ∀ x ∈ l, key m ≤ key x := by
  induction l generalizing m with
  | nil => simp [minByKeyFirst] at h
  | cons x xs ih =>
    rw [minByKeyFirst] at h
    cases hx : minByKeyFirst key xs with
    | none =>
      rw [hx] at h
      dsimp only at h
      obtain rfl : x = m := by injection h
      obtain rfl : xs = [] := (minByKeyFirst_eq_none key xs).1 hx
      exact ⟨List.mem_singleton_self x, by simp⟩
    | some m' =>
      rw [hx] at h
      dsimp only at h
      obtain ⟨hmem', hmin'⟩ := ih m' hx
      by_cases hle : key x ≤ key m'
      · rw [if_pos hle] at h
        obtain rfl : x = m := by injection h
        refine ⟨List.mem_cons_self x xs, ?_⟩
        intro z hz
        rcases List.mem_cons.1 hz with rfl | hz'
        · exact le_refl _
        · exact le_trans hle (hmin' z hz')
      · rw [if_neg hle] at h
        obtain rfl : m' = m := by injection h
        refine ⟨List.mem_cons_of_mem x hmem', ?_⟩
        intro z hz
        rcases List.mem_cons.1 hz with rfl | hz'
        · omega
        · exact hmin' z hz'

/-- C4 counterexample: at the reachable state with nodes `(0,0) ↦ [0]`
(collapsed) and `(1,0) ↦ []` (overspecified), the claim's selection bucket —
uncollapsed, non-overspecified cells — is empty, so the claim requires no
selection; yet the solver selects the overspecified cell `(1,0)`.  (The
selection also consumes no RNG draw, so it is not a uniformly random choice
from any bucket.)  The state is the second snapshot of `runZero2x1`. -/
theorem c4_counterexample :
    pickNode (⟨⟨2, 1⟩, ⟨3, 1⟩, [⟨(0, 0), [0]⟩, ⟨(1, 0), []⟩]⟩ :
        SolverShape Nat) = some ⟨(1, 0), []⟩ ∧
      ((⟨⟨2, 1⟩, ⟨3, 1⟩, [⟨(0, 0), [0]⟩, ⟨(1, 0), []⟩]⟩ :
          SolverShape Nat).nodes.filter
        fun n => !n.isCollapsed && !n.isOverspecified) = [] ∧
      NodeL.isOverspecified (⟨(1, 0), ([] : List Nat)⟩ : NodeL Nat) = true ∧
      runZero2x1.snapshots.get? 1 =
        some ⟨⟨2, 1⟩, ⟨3, 1⟩, [⟨(0, 0), [0]⟩, ⟨(1, 0), []⟩]⟩ := by
  decide

/-- C4 amended: the selection is deterministic, not random — it returns the
first uncollapsed node (in iteration order) of minimal candidate count among
all uncollapsed nodes, with overspecified cells not excluded; it returns
`none` exactly when every node is collapsed. -/
theorem c4_amended {V : Type} (s : SolverShape V) :
    (pickNode s = none ↔ s.nodes.all NodeL.isCollapsed = true) ∧
      ∀ n, pickNode s = some n →
        n ∈ s.nodes ∧ n.isCollapsed = false ∧
          ∀ m ∈ s.nodes, m.isCollapsed = false →
            n.possibilities ≤ m.possibilities := by
  constructor
  · unfold pickNode
    rw [minByKeyFirst_eq_none, List.filter_eq_nil_iff, List.all_eq_true]
    simp
  · intro n hn
    obtain ⟨hmem, hmin⟩ := minByKeyFirst_spec _ _ _ hn
    have hmem' := List.mem_filter.1 hmem
    refine ⟨hmem'.1, by simpa using hmem'.2, ?_⟩
    intro m hm hmc
    exact hmin m (List.mem_filter.2 ⟨hm, by simp [hmc]⟩)

/-- C4 witness: the amended statement at the concrete shape `shape2x1`. -/
theorem c4_amended_witness :
    (pickNode shape2x1 = none ↔
        shape2x1.nodes.all NodeL.isCollapsed = true) ∧
      ∀ n, pickNode shape2x1 = some n →
        n ∈ shape2x1.nodes ∧ n.isCollapsed = false ∧
          ∀ m ∈ shape2x1.nodes, m.isCollapsed = false →
            n.possibilities ≤ m.possibilities :=
  c4_amended shape2x1

/-! ## C6: `Kernel2D::get`

`Kernel2D::get` (`tile2d.rs` lines 152-163) is defined once on the generic
impl, for both border policies: it never applies the wrapping policy.  The
absolute coordinate is computed with an `as u32` cast of an `i64`, which
truncates modulo `2^32`, and is then looked up with the bounds-checked
`get_node`. -/

/-- `List.get?` succeeds exactly within bounds. -/
theorem get?_isSome_iff {α : Type} (l : List α) (n : Nat) :
    (l.get? n).isSome = true ↔ n < l.length := by
  simp only [List.get?_eq_getElem?, Option.isSome_iff_exists,
    List.getElem?_eq_some]
  exact ⟨fun ⟨a, h, _⟩ => h, fun h => ⟨l.get ⟨n, h⟩, h, rfl⟩⟩

/-- A column-major index is in range when its coordinates are. -/
theorem colMajorIdx_lt {r c w h : Nat} (h1 : r < w) (h2 : c < h) :
    c * w + r < w * h := by
  calc c * w + r < c * w + w := by omega
    _ = (c + 1) * w := by ring
    _ ≤ h * w := Nat.mul_le_mul_right w (by omega)
    _ = w * h := Nat.mul_comm h w

/-- C6 counterexample: on the 3-by-3 wrapping-mode kernel centred at `(0,0)`
with radii 1, the in-range offset `(-1, 0)` yields `None`: the claim that
wrapping-mode `get` returns a node for every in-range offset fails, because
`get` never wraps — `(0 + -1) as u32` is `4294967295`, outside the grid. -/
theorem c6_counterexample :
    TileMap2D.new ⟨3, 3⟩ ⟨3, 3⟩ [0] = some tileMap3x3 ∧
      (Kernel2D.new .wrapping tileMap3x3 (NodeF.new (0, 0) [0])).radiusX = 1 ∧
      ((-1 : Int)).natAbs ≤ 1 ∧ ((0 : Int)).natAbs ≤ 1 ∧
      (Kernel2D.new .wrapping tileMap3x3 (NodeF.new (0, 0) [0])).get (-1) 0 =
        none := by
  refine ⟨by decide, rfl, by decide, by decide, ?_⟩
  decide

/-- C6 amended: `get(dx, dy)` ignores the border policy entirely (both modes
behave identically); it returns `None` when `|dx| > rx` or `|dy| > ry`, and
otherwise succeeds iff the truncated coordinates
`((cx + dx) as u32, (cy + dy) as u32)` — i.e. reduced modulo `2^32`, with no
reduction by the grid size — lie inside the grid.  In particular a
wrapping-mode kernel returns `None` for in-range offsets that leave the
grid, and a cutoff-mode kernel whose absolute coordinates stay below `2^32`
returns `None` exactly when they are outside the grid. -/
theorem c6_amended {V : Type} (k : Kernel2D V)
    (hr : k.tileMap.nodes.numRows = k.tileMap.size.width)
    (hc : k.tileMap.nodes.numCols = k.tileMap.size.height)
    (hlen : k.tileMap.nodes.data.length =
      k.tileMap.size.width * k.tileMap.size.height) (x y : Int) :
    (∀ m : WrappingMode,
        ({ k with mode := m } : Kernel2D V).get x y = k.get x y) ∧
      ((k.get x y).isSome = true ↔
        x.natAbs ≤ k.radiusX ∧ y.natAbs ≤ k.radiusY ∧
          Kernel2D.i64AsU32 ((k.nodeId.1 : Int) + x) < k.tileMap.size.width ∧
          Kernel2D.i64AsU32 ((k.nodeId.2 : Int) + y) < k.tileMap.size.height) := by
  refine ⟨fun m => rfl, ?_⟩
  unfold Kernel2D.get
  by_cases h : x.natAbs > k.radiusX ∨ y.natAbs > k.radiusY
  · rw [if_pos h]
    simp only [Option.isSome_none, Bool.false_eq_true, false_iff]
    rintro ⟨h1, h2, -, -⟩
    omega
  · rw [if_neg h]
    push_neg at h
    obtain ⟨h1, h2⟩ := h
    unfold TileMap2D.getNode Vecgrid.get
    dsimp only
    rw [hr, hc]
    by_cases hb :
        Kernel2D.i64AsU32 ((k.nodeId.1 : Int) + x) < k.tileMap.size.width ∧
          Kernel2D.i64AsU32 ((k.nodeId.2 : Int) + y) < k.tileMap.size.height
    · rw [if_pos hb]
      rw [get?_isSome_iff, hlen]
      constructor
      · intro _
        exact ⟨h1, h2, hb.1, hb.2⟩
      · intro _
        exact colMajorIdx_lt hb.1 hb.2
    · rw [if_neg hb]
      simp only [Option.isSome_none, Bool.false_eq_true, false_iff]
      rintro ⟨-, -, hC, hD⟩
      exact hb ⟨hC, hD⟩

/-- C6 witness: the amended statement at the 3-by-3 map, centre `(1, 1)`,
offset `(1, -1)`. -/
theorem c6_amended_witness :
    (∀ m : WrappingMode,
        ({ Kernel2D.new .cutoff tileMap3x3 (NodeF.new (1, 1) [0]) with
            mode := m } : Kernel2D Nat).get 1 (-1) =
          (Kernel2D.new .cutoff tileMap3x3 (NodeF.new (1, 1) [0])).get 1 (-1)) ∧
      (((Kernel2D.new .cutoff tileMap3x3 (NodeF.new (1, 1) [0])).get 1
          (-1)).isSome = true ↔
        (1 : Int).natAbs ≤
            (Kernel2D.new .cutoff tileMap3x3 (NodeF.new (1, 1) [0])).radiusX ∧
          (-1 : Int).natAbs ≤
            (Kernel2D.new .cutoff tileMap3x3 (NodeF.new (1, 1) [0])).radiusY ∧
          Kernel2D.i64AsU32 (((1 : Nat) : Int) + 1) <
            tileMap3x3.size.width ∧
          Kernel2D.i64AsU32 (((1 : Nat) : Int) + (-1)) <
            tileMap3x3.size.height) :=
  c6_amended (Kernel2D.new .cutoff tileMap3x3 (NodeF.new (1, 1) [0]))
    (by decide) (by decide) (by decide) 1 (-1)

/-! ## C8: kernel symmetry of the two enumerations -/

/-- Membership in the inclusive integer range. -/
theorem mem_intRangeIncl (a lo hi : Int) :
    a ∈ intRangeIncl lo hi ↔ lo ≤ a ∧ a ≤ hi := by
  unfold intRangeIncl
  rw [List.mem_map]
  constructor
  · rintro ⟨i, hlt, rfl⟩
    rw [List.mem_range] at hlt
    omega
  · rintro ⟨h1, h2⟩
    refine ⟨(a - lo).toNat, ?_, by omega⟩
    rw [List.mem_range]
    omega

/-- Membership in the cutoff kernel enumeration, as clamped inequalities on
the coordinates. -/
theorem mem_iterNodeIdsCutoff {V : Type} (k : Kernel2D V) (p : Index2D) :
    p ∈ k.iterNodeIdsCutoff ↔
      ((k.nodeId.1 : Int) - k.radiusX ≤ p.1 ∧
        (p.1 : Int) ≤ (k.nodeId.1 : Int) + k.radiusX ∧
        (p.1 : Int) ≤ (k.tileMap.size.width : Int) - 1 ∧
        (k.nodeId.2 : Int) - k.radiusY ≤ p.2 ∧
        (p.2 : Int) ≤ (k.nodeId.2 : Int) + k.radiusY ∧
        (p.2 : Int) ≤ (k.tileMap.size.height : Int) - 1) := by
  obtain ⟨p1, p2⟩ := p
  unfold Kernel2D.iterNodeIdsCutoff
  simp only [List.mem_flatMap, List.mem_map, mem_intRangeIncl]
  constructor
  · rintro ⟨y, ⟨hy1, hy2⟩, x, ⟨hx1, hx2⟩, heq⟩
    have h1 : x.toNat = p1 := congrArg Prod.fst heq
    have h2 : y.toNat = p2 := congrArg Prod.snd heq
    have hx0 : 0 ≤ x := le_trans (le_max_right _ _) hx1
    have hy0 : 0 ≤ y := le_trans (le_max_right _ _) hy1
    rw [max_le_iff] at hx1 hy1
    rw [le_min_iff] at hx2 hy2
    omega
  · rintro ⟨h1, h2, h3, h4, h5, h6⟩
    refine ⟨(p2 : Int), ?_, (p1 : Int), ?_, ?_⟩
    · rw [max_le_iff, le_min_iff]
      refine ⟨⟨h4, by omega⟩, h5, h6⟩
    · rw [max_le_iff, le_min_iff]
      refine ⟨⟨h1, by omega⟩, h2, h3⟩
    · simp

/-- Membership in the wrapping kernel enumeration on a non-degenerate grid:
each coordinate is the Euclidean remainder of some integer in the radius
window around the centre. -/
theorem mem_iterNodeIdsWrapping {V : Type} (k : Kernel2D V) (p : Index2D)
    (hW : 0 < k.tileMap.size.width) (hH : 0 < k.tileMap.size.height) :
    p ∈ k.iterNodeIdsWrapping ↔
      ((∃ x : Int, (k.nodeId.1 : Int) - k.radiusX ≤ x ∧
          x ≤ (k.nodeId.1 : Int) + k.radiusX ∧
          (p.1 : Int) = x.emod (k.tileMap.size.width : Int)) ∧
        (∃ y : Int, (k.nodeId.2 : Int) - k.radiusY ≤ y ∧
          y ≤ (k.nodeId.2 : Int) + k.radiusY ∧
          (p.2 : Int) = y.emod (k.tileMap.size.height : Int))) := by
  obtain ⟨p1, p2⟩ := p
  have hWne : (k.tileMap.size.width : Int) ≠ 0 := by
    simp only [ne_eq, Nat.cast_eq_zero]
    omega
  have hHne : (k.tileMap.size.height : Int) ≠ 0 := by
    simp only [ne_eq, Nat.cast_eq_zero]
    omega
  unfold Kernel2D.iterNodeIdsWrapping
  simp only [List.mem_flatMap, List.mem_map, mem_intRangeIncl]
  constructor
  · rintro ⟨y, ⟨hy1, hy2⟩, x, ⟨hx1, hx2⟩, heq⟩
    have h1 : (x.emod (k.tileMap.size.width : Int)).toNat = p1 :=
      congrArg Prod.fst heq
    have h2 : (y.emod (k.tileMap.size.height : Int)).toNat = p2 :=
      congrArg Prod.snd heq
    have hxm : (0 : Int) ≤ x.emod (k.tileMap.size.width : Int) :=
      Int.emod_nonneg x hWne
    have hym : (0 : Int) ≤ y.emod (k.tileMap.size.height : Int) :=
      Int.emod_nonneg y hHne
    exact ⟨⟨x, hx1, hx2, by omega⟩, ⟨y, hy1, hy2, by omega⟩⟩
  · rintro ⟨⟨x, hx1, hx2, hx3⟩, ⟨y, hy1, hy2, hy3⟩⟩
    refine ⟨y, ⟨hy1, hy2⟩, x, ⟨hx1, hx2⟩, ?_⟩
    have hxm : (0 : Int) ≤ x.emod (k.tileMap.size.width : Int) :=
      Int.emod_nonneg x hWne
    have hym : (0 : Int) ≤ y.emod (k.tileMap.size.height : Int) :=
      Int.emod_nonneg y hHne
    have e1 : (x.emod (k.tileMap.size.width : Int)).toNat = p1 := by omega
    have e2 : (y.emod (k.tileMap.size.height : Int)).toNat = p2 := by omega
    rw [e1, e2]

/-- Symmetry of a wrapped coordinate window: if the reduced coordinate `c` is
the Euclidean remainder of some point of the radius-`r` window around `n`,
then `n` is the remainder of some point of the radius-`r` window around `c`. -/
theorem wrapCoordSymm {W r c n : Int} (hn0 : 0 ≤ n) (hnW : n < W)
    (h : ∃ x : Int, n - r ≤ x ∧ x ≤ n + r ∧ c = x.emod W) :
    ∃ x : Int, c - r ≤ x ∧ x ≤ c + r ∧ n = x.emod W := by
  obtain ⟨x, hx1, hx2, hx3⟩ := h
  refine ⟨c - (x - n), by omega, by omega, ?_⟩
  have h1 : Int.ModEq W c x := by
    unfold Int.ModEq
    rw [hx3]
    exact Int.emod_emod_of_dvd x dvd_rfl
  have h2 : Int.ModEq W (c - (x - n)) (x - (x - n)) := h1.sub_right (x - n)
  have h3 : x - (x - n) = n := by ring
  rw [h3] at h2
  unfold Int.ModEq at h2
  rw [Int.emod_eq_of_lt hn0 hnW] at h2
  exact h2.symm

/-- C8: for any two cells of a `TileMap2D` (valid coordinates), cutoff-mode
kernel-id enumeration is symmetric — `a.id` lies in the kernel of `b` iff
`b.id` lies in the kernel of `a` — and the same holds for wrapping-mode
enumeration, whose output coordinates are already reduced by the Euclidean
modulus of the grid dimensions. -/
theorem c8_kernel_symmetry {V : Type} (tm : TileMap2D V) (a b : NodeF V)
    (ha1 : a.id.1 < tm.size.width) (ha2 : a.id.2 < tm.size.height)
    (hb1 : b.id.1 < tm.size.width) (hb2 : b.id.2 < tm.size.height) :
    (a.id ∈ (Kernel2D.new .cutoff tm b).iterNodeIds ↔
      b.id ∈ (Kernel2D.new .cutoff tm a).iterNodeIds) ∧
    (a.id ∈ (Kernel2D.new .wrapping tm b).iterNodeIds ↔
      b.id ∈ (Kernel2D.new .wrapping tm a).iterNodeIds) := by
  constructor
  · show a.id ∈ (Kernel2D.new .cutoff tm b).iterNodeIdsCutoff ↔
      b.id ∈ (Kernel2D.new .cutoff tm a).iterNodeIdsCutoff
    rw [mem_iterNodeIdsCutoff, mem_iterNodeIdsCutoff]
    simp only [Kernel2D.new]
    omega
  · show a.id ∈ (Kernel2D.new .wrapping tm b).iterNodeIdsWrapping ↔
      b.id ∈ (Kernel2D.new .wrapping tm a).iterNodeIdsWrapping
    rw [mem_iterNodeIdsWrapping _ _ (show 0 < tm.size.width by omega)
        (show 0 < tm.size.height by omega),
      mem_iterNodeIdsWrapping _ _ (show 0 < tm.size.width by omega)
        (show 0 < tm.size.height by omega)]
    simp only [Kernel2D.new]
    have ha1' : (a.id.1 : Int) < (tm.size.width : Int) := by exact_mod_cast ha1
    have ha2' : (a.id.2 : Int) < (tm.size.height : Int) := by exact_mod_cast ha2
    have hb1' : (b.id.1 : Int) < (tm.size.width : Int) := by exact_mod_cast hb1
    have hb2' : (b.id.2 : Int) < (tm.size.height : Int) := by exact_mod_cast hb2
    constructor
    · rintro ⟨hx, hy⟩
      exact ⟨wrapCoordSymm (by omega) hb1' hx, wrapCoordSymm (by omega) hb2' hy⟩
    · rintro ⟨hx, hy⟩
      exact ⟨wrapCoordSymm (by omega) ha1' hx, wrapCoordSymm (by omega) ha2' hy⟩

/-- C8 witness: the symmetry statement at the 3-by-3 map for the cells
`(0, 0)` and `(2, 2)`. -/
theorem c8_kernel_symmetry_witness :
    ((NodeF.new (0, 0) ([0] : List Nat)).id ∈
        (Kernel2D.new .cutoff tileMap3x3 (NodeF.new (2, 2) [0])).iterNodeIds ↔
      (NodeF.new (2, 2) ([0] : List Nat)).id ∈
        (Kernel2D.new .cutoff tileMap3x3 (NodeF.new (0, 0) [0])).iterNodeIds) ∧
    ((NodeF.new (0, 0) ([0] : List Nat)).id ∈
        (Kernel2D.new .wrapping tileMap3x3 (NodeF.new (2, 2) [0])).iterNodeIds ↔
      (NodeF.new (2, 2) ([0] : List Nat)).id ∈
        (Kernel2D.new .wrapping tileMap3x3 (NodeF.new (0, 0) [0])).iterNodeIds) :=
  c8_kernel_symmetry tileMap3x3 (NodeF.new (0, 0) [0]) (NodeF.new (2, 2) [0])
    (by decide) (by decide) (by decide) (by decide)

/-! ## C3 (amended part): what a changed pop enqueues -/

/-- Unfolding `propagateBody` once the popped node has been looked up. -/
theorem propagateBody_eq {V : Type} (P : V → SolverShape V → Index2D → Bool)
    (mode : WrappingMode) (s : SolverShape V) (nid : Index2D) (node : NodeL V)
    (h1 : s.getNode nid = some node) :
    propagateBody P mode s nid =
      (if node.possibleValues.length ≠
          (node.possibleValues.filter fun v => P v s nid).length then
        (((runKernelIds mode s.size s.kernelSize nid).filter
              fun i => i ≠ nid).mapM
            fun i => ((s.updateNode nid
                (node.possibleValues.filter fun v => P v s nid)).getNode i).map
              fun n => PushEvent.mk i n.isCollapsed).map
          fun events =>
            (s.updateNode nid (node.possibleValues.filter fun v => P v s nid),
              (runKernelIds mode s.size s.kernelSize nid).filter
                fun i => i ≠ nid,
              events)
      else
        some (s.updateNode nid (node.possibleValues.filter fun v => P v s nid),
          [], [])) := by
  unfold propagateBody
  rw [h1]
  rfl

/-- Membership in the cutoff kernel-id enumeration the solver uses, phrased
on the raw geometry. -/
theorem mem_runKernelIdsCutoff (size ksize : Size2D) (c p : Index2D) :
    p ∈ runKernelIds .cutoff size ksize c ↔
      ((c.1 : Int) - ((ksize.width - 1) / 2 : Nat) ≤ p.1 ∧
        (p.1 : Int) ≤ (c.1 : Int) + ((ksize.width - 1) / 2 : Nat) ∧
        (p.1 : Int) ≤ (size.width : Int) - 1 ∧
        (c.2 : Int) - ((ksize.height - 1) / 2 : Nat) ≤ p.2 ∧
        (p.2 : Int) ≤ (c.2 : Int) + ((ksize.height - 1) / 2 : Nat) ∧
        (p.2 : Int) ≤ (size.height : Int) - 1) := by
  have he : runKernelIds .cutoff size ksize c =
      Kernel2D.iterNodeIdsCutoff (V := Unit)
        ⟨.cutoff, ⟨size, ksize, ⟨0, 0, []⟩⟩, c,
          (ksize.width - 1) / 2, (ksize.height - 1) / 2⟩ := rfl
  rw [he, mem_iterNodeIdsCutoff]

/-- C3 amended: when the popped node `n`'s candidate list changed, the solver
enqueues exactly the kernel neighbors of `n` (here for a cutoff kernel: the
ids inside the radius window clamped to the grid) that are distinct from `n`
itself — with NO exclusion of collapsed cells (a collapsed cell re-enters the
queue whenever it is such a neighbor; see the counterexample); when the list
did not change, nothing is enqueued. -/
theorem c3_amended {V : Type} (P : V → SolverShape V → Index2D → Bool)
    (s : SolverShape V) (nid : Index2D) (node : NodeL V)
    (h1 : s.getNode nid = some node)
    (s' : SolverShape V) (pushed : List Index2D) (events : List PushEvent)
    (h2 : propagateBody P .cutoff s nid = some (s', pushed, events)) :
    ∀ i : Index2D, i ∈ pushed ↔
      (node.possibleValues.length ≠
          (node.possibleValues.filter fun v => P v s nid).length ∧
        i ≠ nid ∧
        (nid.1 : Int) - ((s.kernelSize.width - 1) / 2 : Nat) ≤ i.1 ∧
        (i.1 : Int) ≤ (nid.1 : Int) + ((s.kernelSize.width - 1) / 2 : Nat) ∧
        (i.1 : Int) ≤ (s.size.width : Int) - 1 ∧
        (nid.2 : Int) - ((s.kernelSize.height - 1) / 2 : Nat) ≤ i.2 ∧
        (i.2 : Int) ≤ (nid.2 : Int) + ((s.kernelSize.height - 1) / 2 : Nat) ∧
        (i.2 : Int) ≤ (s.size.height : Int) - 1) := by
  intro i
  rw [propagateBody_eq P .cutoff s nid node h1] at h2
  by_cases hch : node.possibleValues.length ≠
      (node.possibleValues.filter fun v => P v s nid).length
  · rw [if_pos hch] at h2
    cases hm : ((runKernelIds .cutoff s.size s.kernelSize nid).filter
        fun j => j ≠ nid).mapM
          fun j => ((s.updateNode nid
              (node.possibleValues.filter fun v => P v s nid)).getNode j).map
            fun n => PushEvent.mk j n.isCollapsed with
    | none => rw [hm] at h2; simp at h2
    | some evs =>
      rw [hm] at h2
      simp only [Option.map_some', Option.some.injEq, Prod.mk.injEq] at h2
      obtain ⟨-, hp, -⟩ := h2
      subst hp
      rw [List.mem_filter, mem_runKernelIdsCutoff]
      simp only [decide_eq_true_eq]
      constructor
      · rintro ⟨hk, hne⟩
        exact ⟨hch, hne, hk.1, hk.2.1, hk.2.2.1, hk.2.2.2.1, hk.2.2.2.2.1,
          hk.2.2.2.2.2⟩
      · rintro ⟨-, hne, g1, g2, g3, g4, g5, g6⟩
        exact ⟨⟨g1, g2, g3, g4, g5, g6⟩, hne⟩
  · rw [if_neg hch] at h2
    simp only [Option.some.injEq, Prod.mk.injEq] at h2
    obtain ⟨-, hp, -⟩ := h2
    subst hp
    simp only [List.not_mem_nil, false_iff]
    rintro ⟨hc, -⟩
    exact hch hc

/-- C3 witness: the amended statement at the state of `runZero2x1` in which
the popped cell `(1,0)` changes and pushes the collapsed `(0,0)`, read off at
the pushed id `(0,0)`. -/
theorem c3_amended_witness :
    (((0, 0) : Index2D) ∈ [((0, 0) : Index2D)] ↔
      (((⟨(1, 0), [1]⟩ : NodeL Nat).possibleValues.length ≠
          ((⟨(1, 0), [1]⟩ : NodeL Nat).possibleValues.filter fun v =>
            pIsZero v ⟨⟨2, 1⟩, ⟨3, 1⟩, [⟨(0, 0), [0]⟩, ⟨(1, 0), [1]⟩]⟩
              (1, 0)).length) ∧
        ((0, 0) : Index2D) ≠ (1, 0) ∧
        ((1 : Nat) : Int) - ((((⟨3, 1⟩ : Size2D).width - 1) / 2 : Nat)) ≤
          ((0, 0) : Index2D).1 ∧
        (((0, 0) : Index2D).1 : Int) ≤ ((1 : Nat) : Int) +
          ((((⟨3, 1⟩ : Size2D).width - 1) / 2 : Nat)) ∧
        (((0, 0) : Index2D).1 : Int) ≤ (((⟨2, 1⟩ : Size2D).width : Int)) - 1 ∧
        ((0 : Nat) : Int) - ((((⟨3, 1⟩ : Size2D).height - 1) / 2 : Nat)) ≤
          ((0, 0) : Index2D).2 ∧
        (((0, 0) : Index2D).2 : Int) ≤ ((0 : Nat) : Int) +
          ((((⟨3, 1⟩ : Size2D).height - 1) / 2 : Nat)) ∧
        (((0, 0) : Index2D).2 : Int) ≤
          (((⟨1, 1⟩ : Size2D).height : Int)) - 1)) :=
  c3_amended pIsZero
    ⟨⟨2, 1⟩, ⟨3, 1⟩, [⟨(0, 0), [0]⟩, ⟨(1, 0), [1]⟩]⟩ (1, 0) ⟨(1, 0), [1]⟩
    (by decide) ⟨⟨2, 1⟩, ⟨3, 1⟩, [⟨(0, 0), [0]⟩, ⟨(1, 0), []⟩]⟩ [(0, 0)]
    [⟨(0, 0), true⟩] (by decide) (0, 0)

/-! ## C2 (amended part): candidate counts never increase -/

/-- `updateNode` leaves every node's id in place. -/
theorem updateNode_map_id {V : Type} (s : SolverShape V) (id : Index2D)
    (vals : List V) :
    (s.updateNode id vals).nodes.map NodeL.id = s.nodes.map NodeL.id := by
  unfold SolverShape.updateNode
  rw [List.map_map]
  apply List.map_congr_left
  intro n _
  by_cases h : n.id = id <;> simp [Function.comp, h]

/-- An `updateNode` whose new list is no longer than the lists of the nodes
it touches is a `StepDecr` step. -/
theorem stepDecr_updateNode {V : Type} (s : SolverShape V) (id : Index2D)
    (vals : List V)
    (h : ∀ n ∈ s.nodes, n.id = id → vals.length ≤ n.possibleValues.length) :
    StepDecr s (s.updateNode id vals) := by
  have hnodes : (s.updateNode id vals).nodes =
      s.nodes.map fun n =>
        if n.id = id then { n with possibleValues := vals } else n := rfl
  constructor
  · rw [hnodes, List.length_map]
  · intro j
    constructor
    · rw [hnodes, List.get?_map]
      cases hj : s.nodes.get? j with
      | none => rfl
      | some n =>
        simp only [Option.map_some']
        by_cases hid : n.id = id <;> simp [hid]
    · intro n n' hn hn'
      rw [hnodes, List.get?_map, hn, Option.map_some', Option.some.injEq] at hn'
      by_cases hid : n.id = id
      · rw [if_pos hid] at hn'
        rw [← hn']
        exact h n (List.get?_mem hn) hid
      · rw [if_neg hid] at hn'
        rw [← hn']

/-- A successful `get_node` returns a member of the shape bearing the
requested id. -/
theorem getNode_some_mem {V : Type} (s : SolverShape V) (id : Index2D)
    (n : NodeL V) (h : s.getNode id = some n) : n ∈ s.nodes ∧ n.id = id := by
  unfold SolverShape.getNode at h
  refine ⟨List.mem_of_find?_eq_some h, ?_⟩
  have := List.find?_some h
  simpa using this

/-- A successful propagation-body step writes back a filtered candidate list
for the popped node. -/
theorem propagateBody_some {V : Type} (P : V → SolverShape V → Index2D → Bool)
    (mode : WrappingMode) (s : SolverShape V) (nid : Index2D)
    (r : SolverShape V × List Index2D × List PushEvent)
    (h : propagateBody P mode s nid = some r) :
    ∃ node, s.getNode nid = some node ∧
      r.1 = s.updateNode nid
        (node.possibleValues.filter fun v => P v s nid) := by
  cases hg : s.getNode nid with
  | none =>
    unfold propagateBody at h
    rw [hg] at h
    simp at h
  | some node =>
    rw [propagateBody_eq P mode s nid node hg] at h
    refine ⟨node, rfl, ?_⟩
    split at h
    · obtain ⟨evs, -, hr⟩ := Option.map_eq_some'.1 h
      rw [← hr]
    · simp only [Option.some.injEq] at h
      rw [← h]

/-- Through a successful inner propagation loop, node ids stay intact, every
mutation only shrinks a candidate list (`StepDecr` chain), and the returned
trace ends at the returned state. -/
theorem propagate_chain {V : Type} (P : V → SolverShape V → Index2D → Bool)
    (mode : WrappingMode) :
    ∀ (fuel : Nat) (s : SolverShape V) (q : List Index2D)
      (log : List PushEvent) (trace : List (SolverShape V)),
      (s.nodes.map NodeL.id).Nodup →
      List.Chain' StepDecr trace → trace.getLast? = some s →
      ∀ final log' trace',
        propagate P mode fuel s q log trace = .ok (final, log', trace') →
        (final.nodes.map NodeL.id).Nodup ∧
          List.Chain' StepDecr trace' ∧ trace'.getLast? = some final := by
  intro fuel
  induction fuel with
  | zero =>
    intro s q log trace _ _ _ final log' trace' h
    exact absurd h (by simp [propagate])
  | succ f ih =>
    intro s q log trace hnd hch hlast final log' trace' h
    cases q with
    | nil =>
      rw [propagate] at h
      simp only [Except.ok.injEq, Prod.mk.injEq] at h
      obtain ⟨rfl, rfl, rfl⟩ := h
      exact ⟨hnd, hch, hlast⟩
    | cons q0 qs =>
      rw [propagate] at h
      cases hpm : popMin s (q0 :: qs) with
      | none => rw [hpm] at h; simp at h
      | some pr =>
        obtain ⟨nid, rest⟩ := pr
        rw [hpm] at h
        dsimp only at h
        cases hpb : propagateBody P mode s nid with
        | none => rw [hpb] at h; simp at h
        | some r =>
          obtain ⟨s', pushedIds, events⟩ := r
          rw [hpb] at h
          dsimp only at h
          obtain ⟨node, hg, hs'⟩ := propagateBody_some P mode s nid _ hpb
          dsimp only at hs'
          subst hs'
          have hdecr : StepDecr s (s.updateNode nid
              (node.possibleValues.filter fun v => P v s nid)) := by
            apply stepDecr_updateNode
            intro n hn hid
            obtain ⟨hmem, hnid⟩ := getNode_some_mem s nid node hg
            have hne : n = node :=
              List.inj_on_of_nodup_map hnd hn hmem (by rw [hid, hnid])
            subst hne
            exact List.length_filter_le _ _
          have hnd' : (((s.updateNode nid
              (node.possibleValues.filter fun v => P v s nid)).nodes.map
                NodeL.id)).Nodup := by
            rw [updateNode_map_id]
            exact hnd
          have hch' : List.Chain' StepDecr (trace ++ [s.updateNode nid
              (node.possibleValues.filter fun v => P v s nid)]) := by
            rw [List.chain'_append]
            refine ⟨hch, List.chain'_singleton _, ?_⟩
            intro x hx y hy
            have hx' : x = s := by
              rw [hlast] at hx
              exact (Option.some.injEq .. ▸ hx.symm)
            have hy' : y = s.updateNode nid
                (node.possibleValues.filter fun v => P v s nid) :=
              (by simpa using hy : _ = y).symm
            rw [hx', hy']
            exact hdecr
          exact ih _ _ _ _ hnd' hch' (List.getLast?_concat _) final log' trace' h

/-- A successful `collapse_node` replaces a non-empty candidate list by a
one-element list. -/
theorem collapseNodeVals_some {V : Type} (vals : List V) (draw : Nat)
    (out : List V) (h : collapseNodeVals vals draw = some out) :
    out.length = 1 ∧ 0 < vals.length := by
  unfold collapseNodeVals at h
  obtain ⟨v, hv, hout⟩ := Option.map_eq_some'.1 h
  constructor
  · rw [← hout]
    rfl
  · rcases List.get?_eq_some.1 hv with ⟨hlt, -⟩
    omega

/-- Through the outer solver loop, every mutation in the emitted trace only
shrinks candidate lists. -/
theorem collapseLoop_chain {V : Type} (P : V → SolverShape V → Index2D → Bool)
    (mode : WrappingMode) (pfuel : Nat) (draws : Nat → Nat) :
    ∀ (fuel di : Nat) (s : SolverShape V) (snapshots : List (SolverShape V))
      (log : List PushEvent) (trace : List (SolverShape V)),
      (s.nodes.map NodeL.id).Nodup →
      List.Chain' StepDecr trace → trace.getLast? = some s →
      List.Chain' StepDecr
        (collapseLoop P mode pfuel draws fuel di s snapshots log
          trace).mutTrace := by
  intro fuel
  induction fuel with
  | zero =>
    intro di s snapshots log trace hnd hch hlast
    rw [collapseLoop]
    exact hch
  | succ f ih =>
    intro di s snapshots log trace hnd hch hlast
    rw [collapseLoop]
    split
    · exact hch
    split
    · exact hch
    cases hpk : pickNode s with
    | none => exact hch
    | some node =>
      dsimp only
      cases hcv : collapseNodeVals node.possibleValues (draws di) with
      | none => exact hch
      | some vals =>
        dsimp only
        obtain ⟨hv1, hv0⟩ := collapseNodeVals_some _ _ _ hcv
        have hmemnode : node ∈ s.nodes := by
          have hspec := minByKeyFirst_spec NodeL.possibilities
            (s.nodes.filter fun n => !n.isCollapsed) node hpk
          exact (List.mem_filter.1 hspec.1).1
        have hdecr : StepDecr s (s.updateNode node.id vals) := by
          apply stepDecr_updateNode
          intro n hn hid
          have hne : n = node :=
            List.inj_on_of_nodup_map hnd hn hmemnode (by rw [hid])
          subst hne
          omega
        have hch1 : List.Chain' StepDecr (trace ++ [s.updateNode node.id vals]) := by
          rw [List.chain'_append]
          refine ⟨hch, List.chain'_singleton _, ?_⟩
          intro x hx y hy
          have hx' : x = s := by
            rw [hlast] at hx
            exact (Option.some.injEq .. ▸ hx.symm)
          have hy' : y = s.updateNode node.id vals := (by simpa using hy : _ = y).symm
          rw [hx', hy']
          exact hdecr
        have hnd1 : (((s.updateNode node.id vals).nodes.map NodeL.id)).Nodup := by
          rw [updateNode_map_id]
          exact hnd
        cases hpr : propagate P mode pfuel (s.updateNode node.id vals)
            [node.id] log (trace ++ [s.updateNode node.id vals]) with
        | error e =>
          cases e with
          | panicked => exact hch1
          | fuelOut => exact hch1
        | ok r =>
          obtain ⟨s2, log2, trace2⟩ := r
          obtain ⟨hnd2, hch2, hlast2⟩ := propagate_chain P mode pfuel
            (s.updateNode node.id vals) [node.id] log
            (trace ++ [s.updateNode node.id vals]) hnd1 hch1
            (List.getLast?_concat _) s2 log2 trace2 hpr
          exact ih (di + 1) s2 (snapshots ++ [s2]) log2 trace2 hnd2 hch2 hlast2

/-- C2 amended: over any run of the solver, node ids being unique, the
mutation trace is a `StepDecr` chain — every mutation preserves the cell
layout and never increases any cell's candidate count.  In particular a
collapsed (length-1) cell can only stay at length 1 or shrink to length 0;
it is NOT exempt from mutation: `retain` is applied to every popped node,
collapsed or not, as the counterexample run shows by emptying the freshly
collapsed cell's list. -/
theorem c2_amended {V : Type} (P : V → SolverShape V → Index2D → Bool)
    (mode : WrappingMode) (fuel pfuel : Nat) (draws : Nat → Nat)
    (shape : SolverShape V)
    (hnd : (shape.nodes.map NodeL.id).Nodup) :
    List.Chain' StepDecr
      (collapseWave P mode fuel pfuel draws shape).mutTrace := by
  unfold collapseWave
  split
  · exact List.chain'_nil
  · exact collapseLoop_chain P mode pfuel draws fuel 0 shape [] [] [shape]
      hnd (List.chain'_singleton _) rfl

/-- C2 witness: the amended statement on the concrete run `runFalse1x1`
(whose node ids are distinct). -/
theorem c2_amended_witness :
    List.Chain' StepDecr
      (collapseWave pFalse .cutoff 5 5 (fun _ => 0) shape1x1).mutTrace :=
  c2_amended pFalse .cutoff 5 5 (fun _ => 0) shape1x1 (by decide)

/-! ## C10: `TileMap2D::get_collapsed` -/

/-- On an all-`some` list, `reduceOption` is position-preserving. -/
theorem reduceOption_get?_all_isSome {α : Type} :
    ∀ (os : List (Option α)), (∀ o ∈ os, o.isSome = true) →
      ∀ i : Nat, os.reduceOption.get? i = (os.get? i).bind id
  | [], _, i => by simp
  | o :: os, h, i => by
    cases o with
    | none =>
      exact absurd (h none (List.mem_cons_self _ _)) (by simp)
    | some a =>
      rw [List.reduceOption_cons_of_some]
      cases i with
      | zero => rfl
      | succ j =>
        show (List.reduceOption os).get? j = (os.get? j).bind id
        exact reduceOption_get?_all_isSome os
          (fun o ho => h o (List.mem_cons_of_mem _ ho)) j

/-- On an all-`some` list, `reduceOption` preserves the length. -/
theorem reduceOption_length_all_isSome {α : Type} :
    ∀ (os : List (Option α)), (∀ o ∈ os, o.isSome = true) →
      os.reduceOption.length = os.length
  | [], _ => rfl
  | o :: os, h => by
    cases o with
    | none =>
      exact absurd (h none (List.mem_cons_self _ _)) (by simp)
    | some a =>
      rw [List.reduceOption_cons_of_some, List.length_cons, List.length_cons,
        reduceOption_length_all_isSome os
          (fun o ho => h o (List.mem_cons_of_mem _ ho))]

/-- C10: on a well-formed tile map (grid dimensions match the size, a set
collapsed flag implies a non-empty candidate list — nodes the crate builds
always satisfy this — and the node stored at `(x, y)` carries the id
`(x, y)`), `get_collapsed` returns `None` iff some node's collapsed flag is
unset, and otherwise a grid of the same width and height whose entry at
`(x, y)` is the collapsed value of the node with id `(x, y)`. -/
theorem c10_get_collapsed {V : Type} (tm : TileMap2D V)
    (hr : tm.nodes.numRows = tm.size.width)
    (hc : tm.nodes.numCols = tm.size.height)
    (hlen : tm.nodes.data.length = tm.size.width * tm.size.height)
    (hflag : ∀ n ∈ tm.nodes.data, n.isCollapsed = true →
      n.possibleValues ≠ [])
    (hid : ∀ x : Nat, x < tm.size.width → ∀ y : Nat, y < tm.size.height →
      (tm.getNode (x, y)).map NodeF.id = some (x, y)) :
    (tm.getCollapsed = none ↔ ∃ n ∈ tm.nodes.data, n.isCollapsed = false) ∧
      ∀ g, tm.getCollapsed = some g →
        g.numRows = tm.size.width ∧ g.numCols = tm.size.height ∧
          ∀ x y : Nat, x < tm.size.width → y < tm.size.height →
            ∃ n v, tm.getNode (x, y) = some n ∧ n.id = (x, y) ∧
              n.collapsedValue = some v ∧ g.get x y = some v := by
  have hgc : tm.getCollapsed =
      (if (tm.nodes.data.map NodeF.collapsedValue).any Option.isNone then
        none
      else
        Vecgrid.fromColumnMajor
          (tm.nodes.data.map NodeF.collapsedValue).reduceOption
          tm.size.width tm.size.height) := rfl
  by_cases hany : (tm.nodes.data.map NodeF.collapsedValue).any Option.isNone
  · rw [hgc, if_pos hany]
    obtain ⟨o, ho, hno⟩ := List.any_eq_true.1 hany
    obtain ⟨n, hn, rfl⟩ := List.mem_map.1 ho
    have hnf : n.isCollapsed = false := by
      by_contra hcon
      have hflagt : n.isCollapsed = true := by
        cases hb : n.isCollapsed
        · exact absurd hb hcon
        · rfl
      have hne := hflag n hn hflagt
      unfold NodeF.collapsedValue at hno
      rw [if_pos hflagt] at hno
      cases hv : n.possibleValues with
      | nil => exact hne hv
      | cons a l =>
        rw [hv] at hno
        simp at hno
    refine ⟨⟨fun _ => ⟨n, hn, hnf⟩, fun _ => rfl⟩, ?_⟩
    intro g hg
    exact absurd hg (by simp)
  · have hall : ∀ o ∈ tm.nodes.data.map NodeF.collapsedValue,
        o.isSome = true := by
      intro o ho
      cases hb : o with
      | some a => rfl
      | none =>
        rw [hb] at ho
        exact absurd (List.any_eq_true.2 ⟨none, ho, rfl⟩) hany
    have hlen' : (tm.nodes.data.map NodeF.collapsedValue).reduceOption.length =
        tm.size.width * tm.size.height := by
      rw [reduceOption_length_all_isSome _ hall, List.length_map]
      exact hlen
    have hsome : tm.getCollapsed = some
        ⟨tm.size.width, tm.size.height,
          (tm.nodes.data.map NodeF.collapsedValue).reduceOption⟩ := by
      rw [hgc, if_neg hany]
      unfold Vecgrid.fromColumnMajor
      rw [if_pos hlen']
    constructor
    · rw [hsome]
      constructor
      · intro h
        exact absurd h (by simp)
      · rintro ⟨n, hn, hnf⟩
        have ho := hall (NodeF.collapsedValue n)
          (List.mem_map.2 ⟨n, hn, rfl⟩)
        unfold NodeF.collapsedValue at ho
        rw [hnf] at ho
        simp at ho
    · intro g hg
      rw [hsome] at hg
      obtain rfl : (⟨tm.size.width, tm.size.height,
          (tm.nodes.data.map NodeF.collapsedValue).reduceOption⟩ :
            Vecgrid V) = g := by
        injection hg
      refine ⟨rfl, rfl, ?_⟩
      intro x y hx hy
      have hidx : y * tm.size.width + x < tm.nodes.data.length := by
        rw [hlen]
        exact colMajorIdx_lt hx hy
      have hget : tm.getNode (x, y) = tm.nodes.data.get? (y * tm.size.width + x) := by
        unfold TileMap2D.getNode Vecgrid.get
        rw [if_pos]
        · rw [hr]
        · rw [hr, hc]
          exact ⟨hx, hy⟩
      obtain ⟨n, hn⟩ : ∃ n, tm.nodes.data.get? (y * tm.size.width + x) = some n := by
        cases hb : tm.nodes.data.get? (y * tm.size.width + x) with
        | none =>
          rw [List.get?_eq_none] at hb
          omega
        | some n => exact ⟨n, rfl⟩
      have hmem : n ∈ tm.nodes.data := List.get?_mem hn
      have hsv : (NodeF.collapsedValue n).isSome = true :=
        hall _ (List.mem_map.2 ⟨n, hmem, rfl⟩)
      obtain ⟨v, hv⟩ := Option.isSome_iff_exists.1 hsv
      refine ⟨n, v, by rw [hget, hn], ?_, hv, ?_⟩
      · have := hid x hx y hy
        rw [hget, hn] at this
        simpa using this
      · show Vecgrid.get _ x y = some v
        unfold Vecgrid.get
        rw [if_pos ⟨hx, hy⟩]
        show ((tm.nodes.data.map NodeF.collapsedValue).reduceOption).get?
          (y * tm.size.width + x) = some v
        rw [reduceOption_get?_all_isSome _ hall, List.get?_map, hn]
        simpa using hv

/-- C10 witness: the statement at a concrete 2-by-1 map whose two nodes are
both collapsed. -/
theorem c10_get_collapsed_witness :
    ((⟨⟨2, 1⟩, ⟨1, 1⟩, ⟨2, 1, [⟨(0, 0), [7], true⟩, ⟨(1, 0), [9], true⟩]⟩⟩ :
        TileMap2D Nat).getCollapsed = none ↔
      ∃ n ∈ (⟨⟨2, 1⟩, ⟨1, 1⟩,
          ⟨2, 1, [⟨(0, 0), [7], true⟩, ⟨(1, 0), [9], true⟩]⟩⟩ :
            TileMap2D Nat).nodes.data, n.isCollapsed = false) ∧
      ∀ g, (⟨⟨2, 1⟩, ⟨1, 1⟩,
          ⟨2, 1, [⟨(0, 0), [7], true⟩, ⟨(1, 0), [9], true⟩]⟩⟩ :
            TileMap2D Nat).getCollapsed = some g →
        g.numRows = 2 ∧ g.numCols = 1 ∧
          ∀ x y : Nat, x < 2 → y < 1 →
            ∃ n v, (⟨⟨2, 1⟩, ⟨1, 1⟩,
                ⟨2, 1, [⟨(0, 0), [7], true⟩, ⟨(1, 0), [9], true⟩]⟩⟩ :
                  TileMap2D Nat).getNode (x, y) = some n ∧ n.id = (x, y) ∧
              n.collapsedValue = some v ∧ g.get x y = some v :=
  c10_get_collapsed
    ⟨⟨2, 1⟩, ⟨1, 1⟩, ⟨2, 1, [⟨(0, 0), [7], true⟩, ⟨(1, 0), [9], true⟩]⟩⟩
    rfl rfl (by decide) (by decide) (by decide)
